import Mathlib

/-!
Verification development for the Caesar trading terminal.

This file gives a shallow embedding, in Lean, of the claim-relevant parts of
the repository:

* `internal/signer/session.go` — the session manager (`SessionManager.Sign`,
  `Status`, `destroyLocked`, the EIP-712 hashing helpers);
* `internal/signer/handler.go` — the gRPC handler's `OrderData` construction
  and the order validator (`Validator.Validate`);
* `internal/adapter/circuit_breaker.go` — the circuit breaker
  (`CanTrade`, `recordUpdate`, `MarkStale`);
* `internal/adapter/kalshi/adapter.go` — the Kalshi decoder's delta handling;
* `internal/adapter/redis_writer.go` — the best-bid/ask persistence writer;
* the fan-out subscription ordering of the Polymarket and Kalshi adapters.

Modelling conventions:

* Go `time.Time` values are modelled as `Int` milliseconds; the Go zero time
  (`IsZero`) corresponds to the integer `0`.
* Go `*big.Int` monetary values are modelled as `Int`.
* Go `float64` prices/sizes are modelled as `ℚ`; the float values that occur
  on these code paths (cents divided by 100, prices in [0,1]) are compared
  for exact equality in the Go code, which rational equality models.
* Byte slices are `List Nat`; Go maps are association lists with
  insert-overwrites semantics (`alInsert`), whose lookup behaviour is
  characterised by the lemmas `alFind_alInsert` and `alFind_alErase`.
* The external go-ethereum primitives `crypto.Keccak256` and `crypto.Sign`
  are parameters (`CryptoCtx`); claims about them use only their documented
  contracts, stated as explicit hypotheses.
-/

/-! ## Association lists (model of Go maps) -/

/-- First-match lookup in an association list, the model of Go map indexing. -/
def alFind {κ β : Type} [DecidableEq κ] (k : κ) : List (κ × β) → Option β
  | [] => none
  | e :: rest => if e.1 = k then some e.2 else alFind k rest

/-- Remove every binding of key `k`, the model of Go `delete(m, k)`. -/
def alErase {κ β : Type} [DecidableEq κ] (k : κ) : List (κ × β) → List (κ × β)
  | [] => []
  | e :: rest => if e.1 = k then alErase k rest else e :: alErase k rest

/-- Overwriting insert, the model of Go `m[k] = v`. -/
def alInsert {κ β : Type} [DecidableEq κ] (k : κ) (v : β) (l : List (κ × β)) :
    List (κ × β) :=
  (k, v) :: alErase k l

theorem alFind_alErase {κ β : Type} [DecidableEq κ] (k k₁ : κ) (l : List (κ × β)) :
    alFind k₁ (alErase k l) = if k₁ = k then none else alFind k₁ l := by
  induction l with
  | nil => simp [alErase, alFind]
  | cons e rest ih =>
    simp only [alErase]
    by_cases h : e.1 = k
    · rw [if_pos h, ih]
      by_cases h₁ : k₁ = k
      · simp [h₁]
      · have hne : ¬ e.1 = k₁ := by
          rw [h]; exact fun hk => h₁ hk.symm
        simp [alFind, hne, h₁]
    · rw [if_neg h]
      simp only [alFind]
      by_cases h₂ : e.1 = k₁
      · have h₁ : ¬ k₁ = k := by rw [← h₂]; exact h
        simp [h₂, h₁]
      · simp [h₂, ih]

theorem alFind_alInsert {κ β : Type} [DecidableEq κ] (k k₁ : κ) (v : β)
    (l : List (κ × β)) :
    alFind k₁ (alInsert k v l) = if k₁ = k then some v else alFind k₁ l := by
  by_cases h : k₁ = k
  · simp [alInsert, alFind, h]
  · have h₂ : ¬ k = k₁ := fun hk => h hk.symm
    simp [alInsert, alFind, h₂, alFind_alErase, h]

/-! ## Byte-level helpers (go-ethereum `common` package)

`natToBytesBE` models `big.Int.Bytes()` for a non-negative value: the minimal
big-endian byte representation, empty for zero.  `leftPadBytes` models
`common.LeftPadBytes`, which returns the slice unchanged when it is already
at least the requested length.  `pad32` models
`common.LeftPadBytes(x.Bytes(), 32)`; `Int.natAbs` reflects that
`big.Int.Bytes()` drops the sign.
-/

def natToBytesBE : Nat → List Nat
  | 0 => []
  | n + 1 => natToBytesBE ((n + 1) / 256) ++ [(n + 1) % 256]
decreasing_by exact Nat.div_lt_self (Nat.succ_pos n) (by norm_num)

def leftPadBytes (b : List Nat) (l : Nat) : List Nat :=
  if l ≤ b.length then b else List.replicate (l - b.length) 0 ++ b

def pad32 (x : Int) : List Nat :=
  leftPadBytes (natToBytesBE x.natAbs) 32

theorem natToBytesBE_length_le : ∀ (k n : Nat), n < 256 ^ k →
    (natToBytesBE n).length ≤ k := by
  intro k
  induction k with
  | zero =>
    intro n hn
    interval_cases n
    simp [natToBytesBE]
  | succ k ih =>
    intro n hn
    match n with
    | 0 => simp [natToBytesBE]
    | m + 1 =>
      have hdiv : (m + 1) / 256 < 256 ^ k := by
        have : m + 1 < 256 ^ k * 256 := by
          calc m + 1 < 256 ^ (k + 1) := hn
          _ = 256 ^ k * 256 := by ring
        exact Nat.div_lt_of_lt_mul (by omega)
      have := ih ((m + 1) / 256) hdiv
      simp only [natToBytesBE, List.length_append, List.length_cons,
        List.length_nil]
      omega

theorem pad32_length (x : Int) (h : x.natAbs < 256 ^ 32) :
    (pad32 x).length = 32 := by
  have hle := natToBytesBE_length_le 32 x.natAbs h
  unfold pad32 leftPadBytes
  by_cases hc : 32 ≤ (natToBytesBE x.natAbs).length
  · simp [hc]; omega
  · simp [hc]; omega

/-- ASCII bytes of a string (Go `[]byte(s)`; all strings involved are ASCII). -/
def strBytes (s : String) : List Nat :=
  s.data.map (fun c => c.toNat)

/-! ## Signer session model (`internal/signer/session.go`) -/

/-- The EIP-712 `Order` type string hashed into `orderTypeHash`
    (session.go lines 28-31). -/
def orderTypeString : String :=
  "Order(uint256 salt,address maker,address signer,address taker,uint256 tokenId,uint256 makerAmount,uint256 takerAmount,uint256 expiration,uint256 nonce,uint256 feeRateBps,uint8 side,uint8 signatureType)"

/-- The EIP-712 domain type string (session.go lines 23-26). -/
def domainTypeString : String :=
  "EIP712Domain(string name,string version,uint256 chainId,address verifyingContract)"

/-- `OrderData` (session.go lines 35-48).  All `*big.Int` and `uint8` fields
    are modelled as `Int`. -/
structure OrderData where
  salt : Int
  maker : Int
  signer : Int
  taker : Int
  tokenID : Int
  makerAmount : Int
  takerAmount : Int
  expiration : Int
  nonce : Int
  feeRateBps : Int
  side : Int
  signatureType : Int
deriving DecidableEq, Repr

/-- `DomainData` (session.go lines 51-56). -/
structure DomainData where
  name : String
  version : String
  chainID : Int
  verifyingContract : Int
deriving DecidableEq, Repr

/-- The two external go-ethereum primitives used by `Sign`.  `keccak` stands
    for `crypto.Keccak256` (bytes to 32-byte hash); `ecSign` stands for the
    whole fallible tail of the sign path (`enclave.Open`, `crypto.ToECDSA`,
    `crypto.Sign`): it maps a digest to `some` 65-byte `r||s||v` signature
    with `v ∈ {0,1}`, or `none` on failure. -/
structure CryptoCtx where
  keccak : List Nat → List Nat
  ecSign : List Nat → Option (List Nat)

/-- `orderTypeHash` (session.go line 29). -/
def orderTypeHash (keccak : List Nat → List Nat) : List Nat :=
  keccak (strBytes orderTypeString)

/-- `eip712DomainTypeHash` (session.go line 24). -/
def eip712DomainTypeHash (keccak : List Nat → List Nat) : List Nat :=
  keccak (strBytes domainTypeString)

/-- `hashDomain` (session.go lines 202-210): `crypto.Keccak256Hash` of the
    concatenation of the domain type hash, the hashed name and version, and
    the padded chain id and verifying contract. -/
def hashDomain (keccak : List Nat → List Nat) (d : DomainData) : List Nat :=
  keccak (eip712DomainTypeHash keccak ++ keccak (strBytes d.name) ++
    keccak (strBytes d.version) ++ pad32 d.chainID ++ pad32 d.verifyingContract)

/-- `hashOrder` (session.go lines 213-229): keccak of the order type hash
    followed by the twelve order fields, each left-padded to 32 bytes, in
    declared order. -/
def hashOrder (keccak : List Nat → List Nat) (o : OrderData) : List Nat :=
  keccak (orderTypeHash keccak ++ pad32 o.salt ++ pad32 o.maker ++
    pad32 o.signer ++ pad32 o.taker ++ pad32 o.tokenID ++ pad32 o.makerAmount ++
    pad32 o.takerAmount ++ pad32 o.expiration ++ pad32 o.nonce ++
    pad32 o.feeRateBps ++ pad32 o.side ++ pad32 o.signatureType)

/-- `eip712Digest` (session.go lines 233-239):
    `keccak256(0x19 || 0x01 || domainSeparator || structHash)`. -/
def eip712Digest (keccak : List Nat → List Nat)
    (domainHash structHash : List Nat) : List Nat :=
  keccak (0x19 :: 0x01 :: (domainHash ++ structHash))

/-- `sig[64] += 27` (session.go line 151) on a 65-byte signature: the first 64
    bytes are untouched and the byte at index 64 is bumped by 27 (byte
    arithmetic, hence mod 256). -/
def adjustV (sig : List Nat) : List Nat :=
  sig.take 64 ++ (sig.drop 64).map (fun b => (b + 27) % 256)

/-- Session-manager state (session.go lines 61-69).  `active` models
    `enclave != nil`; times are `Int` milliseconds. -/
structure SessionState where
  active : Bool
  address : String
  expiresAt : Int
  maxValueLimit : Int
  valueUsed : Int
deriving DecidableEq, Repr

/-- Errors returned by `Sign` (session.go lines 15-19); `signFailure` covers
    the wrapped enclave-open / key-parse / ecdsa-sign errors. -/
inductive SignErr where
  | noSession
  | sessionExpired
  | limitExceeded
  | signFailure
deriving DecidableEq, Repr

/-- `destroyLocked` (session.go lines 189-194): drop the enclave, clear the
    address, reset `valueUsed`, nil out the limit (modelled as 0).
    `expiresAt` is not touched by the Go code. -/
def destroyLocked (s : SessionState) : SessionState :=
  { s with active := false, address := "", valueUsed := 0, maxValueLimit := 0 }

/-- `SessionManager.Sign` (session.go lines 109-157).  `now > s.expiresAt`
    models `time.Now().After(sm.expiresAt)` (strict).  On success the
    signature is returned with its recovery byte bumped to 27/28 and
    `valueUsed` is advanced to `valueUsed + orderValue`. -/
def smSign (ctx : CryptoCtx) (now orderValue : Int) (d : DomainData)
    (o : OrderData) (s : SessionState) :
    Except SignErr (List Nat) × SessionState :=
  if s.active = false then (.error .noSession, s)
  else if now > s.expiresAt then (.error .sessionExpired, destroyLocked s)
  else if s.valueUsed + orderValue > s.maxValueLimit then
    (.error .limitExceeded, s)
  else
    match ctx.ecSign (eip712Digest ctx.keccak (hashDomain ctx.keccak d)
        (hashOrder ctx.keccak o)) with
    | none => (.error .signFailure, s)
    | some sig =>
      (.ok (adjustV sig), { s with valueUsed := s.valueUsed + orderValue })

/-- `SessionManager.Status` (session.go lines 161-179).  The Go code returns
    the monetary values as decimal strings; they are modelled as the
    underlying integers (`"0"` corresponds to `0`).  `ttl` is the remaining
    whole seconds, clamped at zero. -/
def smStatus (s : SessionState) (now : Int) : Bool × Int × Int × Int × String :=
  if s.active = false then (false, 0, 0, 0, "")
  else if now > s.expiresAt then (false, 0, 0, 0, "")
  else
    let remaining := (s.expiresAt - now) / 1000
    (true, if remaining < 0 then 0 else remaining,
      s.maxValueLimit, s.valueUsed, s.address)

/-- One `sign_order` call: its observation time, its notional
    (`orderValue`, the parsed `makerAmount`), the crypto outcome context and
    the domain/order payloads. -/
structure SignCall where
  now : Int
  value : Int
  ctx : CryptoCtx
  domain : DomainData
  order : OrderData

/-- Run a sequence of `Sign` calls, returning each call's result paired with
    the state after it. -/
def signTrace (s : SessionState) :
    List SignCall → List (Except SignErr (List Nat) × SessionState)
  | [] => []
  | c :: cs =>
    let r := smSign c.ctx c.now c.value c.domain c.order s
    r :: signTrace r.2 cs

/-- Total notional of the approved (successfully signed) calls in a run. -/
def approvedTotal (s : SessionState) : List SignCall → Int
  | [] => 0
  | c :: cs =>
    let r := smSign c.ctx c.now c.value c.domain c.order s
    (match r.1 with
     | .ok _ => c.value
     | .error _ => 0) + approvedTotal r.2 cs

/-- Per-call accounting of `valueUsed` along a run: an approved call advances
    it by exactly the call's notional; a `sessionExpired` rejection destroys
    the session (resetting it to zero); every other rejection leaves it
    unchanged. -/
def usedLedger (s : SessionState) : List SignCall → Prop
  | [] => True
  | c :: cs =>
    let r := smSign c.ctx c.now c.value c.domain c.order s
    (match r.1 with
     | .ok _ => r.2.valueUsed = s.valueUsed + c.value
     | .error .sessionExpired => r.2.valueUsed = 0 ∧ r.2.active = false
     | .error _ => r.2.valueUsed = s.valueUsed) ∧ usedLedger r.2 cs

/-! ## gRPC handler model (`internal/signer/handler.go`) -/

/-- Proto `OrderSide` enum (gen code; values per the handler switch). -/
inductive OrderSide where
  | unspecified
  | buy
  | sell
deriving DecidableEq, Repr

/-- Proto `SignatureType` enum. -/
inductive SignatureType where
  | unspecified
  | eoa
  | polyProxy
  | polyGnosisSafe
deriving DecidableEq, Repr

/-- `protoSideToUint8` (handler.go lines 112-121): BUY = 0, SELL = 1,
    default 0. -/
def protoSideToUint8 : OrderSide → Int
  | .buy => 0
  | .sell => 1
  | .unspecified => 0

/-- `protoSigTypeToUint8` (handler.go lines 124-135): EOA = 0, POLY_PROXY = 1,
    POLY_GNOSIS_SAFE = 2, default 0. -/
def protoSigTypeToUint8 : SignatureType → Int
  | .eoa => 0
  | .polyProxy => 1
  | .polyGnosisSafe => 2
  | .unspecified => 0

/-- The fields of the proto `Order` message that `SignOrder` reads
    (handler.go lines 38-72).  There is no salt field and no signer field. -/
structure ProtoOrder where
  maker : String
  taker : String
  tokenId : String
  makerAmount : String
  takerAmount : String
  expiration : Nat
  nonce : Nat
  feeRateBps : Nat
  side : OrderSide
  signatureType : SignatureType
deriving DecidableEq, Repr

/-- The fields of the proto `Domain` message that `SignOrder` reads. -/
structure ProtoDomain where
  name : String
  version : String
  chainId : Int
  verifyingContract : String
deriving DecidableEq, Repr

/-- Value of one decimal digit, `none` for a non-digit. -/
def decDigit (c : Char) : Option Nat :=
  if '0' ≤ c ∧ c ≤ '9' then some (c.toNat - 48) else none

/-- Fold a digit string into a number; fails on the empty string or on any
    non-digit. -/
def decDigits : List Char → Option Nat
  | [] => none
  | [c] => decDigit c
  | c :: cs => match decDigit c, decDigits cs with
    | some v, some rest =>
      some (v * 10 ^ cs.length + rest)
    | _, _ => none

/-- Model of `big.Int.SetString(s, 10)`: an optional sign followed by at
    least one decimal digit. -/
def setStringDec (s : String) : Option Int :=
  match s.data with
  | '+' :: rest => (decDigits rest).map (fun n => (n : Int))
  | '-' :: rest => (decDigits rest).map (fun n => -(n : Int))
  | l => (decDigits l).map (fun n => (n : Int))

/-- Value of one hexadecimal digit, `none` for a non-hex character. -/
def hexVal (c : Char) : Option Nat :=
  if '0' ≤ c ∧ c ≤ '9' then some (c.toNat - 48)
  else if 'a' ≤ c ∧ c ≤ 'f' then some (c.toNat - 87)
  else if 'A' ≤ c ∧ c ≤ 'F' then some (c.toNat - 55)
  else none

def hexFold : List Char → Nat → Nat
  | [], acc => acc
  | c :: cs, acc => match hexVal c with
    | some v => hexFold cs (acc * 16 + v)
    | none => hexFold cs acc

/-- Model of go-ethereum `common.HexToAddress`: a 160-bit address derived
    from the hex string (optional `0x` prefix).  The claims proved below use
    only that this is a fixed function of the string. -/
def hexToAddress (s : String) : Int :=
  let cs := match s.data with
    | '0' :: 'x' :: rest => rest
    | '0' :: 'X' :: rest => rest
    | l => l
  Int.ofNat (hexFold cs 0 % 2 ^ 160)

/-- The `OrderData` construction in `Handler.SignOrder` (handler.go lines
    50-72): `Salt` is the fresh zero `big.Int`, `Signer` is
    `common.HexToAddress(req.Order.Maker)` — the maker address — and the
    numeric strings are parsed with `SetString` (an unparseable string leaves
    the zero value). -/
def buildOrderData (po : ProtoOrder) : OrderData :=
  { salt := 0
  , maker := hexToAddress po.maker
  , signer := hexToAddress po.maker
  , taker := hexToAddress po.taker
  , tokenID := (setStringDec po.tokenId).getD 0
  , makerAmount := (setStringDec po.makerAmount).getD 0
  , takerAmount := (setStringDec po.takerAmount).getD 0
  , expiration := Int.ofNat po.expiration
  , nonce := Int.ofNat po.nonce
  , feeRateBps := Int.ofNat po.feeRateBps
  , side := protoSideToUint8 po.side
  , signatureType := protoSigTypeToUint8 po.signatureType }

/-- The `DomainData` construction in `Handler.SignOrder` (handler.go lines
    43-48). -/
def buildDomainData (pd : ProtoDomain) : DomainData :=
  { name := pd.name
  , version := pd.version
  , chainID := pd.chainId
  , verifyingContract := hexToAddress pd.verifyingContract }

/-! ## Circuit breaker model (`circuit_breaker.go`, src/unnamed/part_005) -/

/-- `CircuitState` of the WebSocket transport (websocket.go):
    `closed` = healthy, `open` = unhealthy. -/
inductive CircuitState where
  | closed
  | open
deriving DecidableEq, Repr

/-- `marketState` (part_005 lines 216-222).  Times are `Int` milliseconds;
    the Go zero `time.Time` (`IsZero`) is the integer 0. -/
structure MarketHealthState where
  lastUpdate : Int
  recoveredAt : Int
  healthy : Bool
deriving DecidableEq, Repr

/-- The zero `marketState` allocated by `recordUpdate` for a new key. -/
def marketStateZero : MarketHealthState :=
  { lastUpdate := 0, recoveredAt := 0, healthy := false }

/-- `CircuitBreaker` state (part_005 lines 230-247).  The `nowFunc` clock is
    passed explicitly to each operation. -/
structure BreakerState where
  staleThreshold : Int
  coolOff : Int
  conns : List (String × CircuitState)
  markets : List ((String × String) × MarketHealthState)
  halted : Bool
deriving DecidableEq, Repr

/-- `DefaultCircuitBreakerConfig` (part_005 lines 207-213): stale threshold
    1000 ms, cool-off 2 s. -/
def defaultStaleThreshold : Int := 1000

def defaultCoolOff : Int := 2000

/-- `CircuitBreaker.CanTrade` (part_005 lines 290-328). -/
def canTrade (cb : BreakerState) (exchange marketID : String) (now : Int) :
    Bool :=
  if cb.halted then false
  else if alFind exchange cb.conns = some CircuitState.open then false
  else
    match alFind (exchange, marketID) cb.markets with
    | none => false
    | some ms =>
      if now - ms.lastUpdate > cb.staleThreshold then false
      else if ms.recoveredAt ≠ 0 ∧ now - ms.recoveredAt < cb.coolOff then false
      else true

/-- `CircuitBreaker.recordUpdate` (part_005 lines 346-369): set
    `lastUpdate := now`, mark healthy, and start the cool-off
    (`recoveredAt := now`) exactly when the market was previously
    unhealthy (a missing entry starts as the unhealthy zero state). -/
def recordUpdate (cb : BreakerState) (exchange marketID : String) (now : Int) :
    BreakerState :=
  let ms := (alFind (exchange, marketID) cb.markets).getD marketStateZero
  let ms' : MarketHealthState :=
    { lastUpdate := now
    , healthy := true
    , recoveredAt := if ms.healthy = false then now else ms.recoveredAt }
  { cb with markets := alInsert (exchange, marketID) ms' cb.markets }

/-- `CircuitBreaker.MarkStale` (part_005 lines 373-382): force the healthy
    flag to false for an existing entry; no other field changes. -/
def markStale (cb : BreakerState) (exchange marketID : String) : BreakerState :=
  match alFind (exchange, marketID) cb.markets with
  | none => cb
  | some ms =>
    { cb with markets :=
        alInsert (exchange, marketID) { ms with healthy := false } cb.markets }

/-- `CircuitBreaker.ManualHalt` (part_005 lines 271-275). -/
def manualHalt (cb : BreakerState) : BreakerState :=
  { cb with halted := true }

/-- `CircuitBreaker.Resume` (part_005 lines 279-283). -/
def breakerResume (cb : BreakerState) : BreakerState :=
  { cb with halted := false }

/-! ## Unified book update (`internal/adapter/types.go`) -/

/-- `BookUpdate` (types.go).  Prices and sizes are `ℚ` (Go `float64`);
    `timestamp` is `Int` milliseconds. -/
structure BookUpdate where
  exchange : String
  marketID : String
  assetID : String
  bids : List (ℚ × ℚ)
  asks : List (ℚ × ℚ)
  timestamp : Int
  hash : String
deriving DecidableEq, Repr

/-! ## Kalshi decoder model (`internal/adapter/kalshi/adapter.go`) -/

/-- `orderBook` (kalshi/adapter.go lines 70-75): per-market internal state,
    price (cents) to quantity on each side. -/
structure KalshiOrderBook where
  marketTicker : String
  marketID : String
  yes : List (Int × Int)
  no : List (Int × Int)
deriving DecidableEq, Repr

/-- The `msg` payload of a raw `orderbook_delta` frame (kalshi/adapter.go
    lines 55-67). -/
structure KalshiDelta where
  marketTicker : String
  marketID : String
  price : Int
  delta : Int
  side : String
deriving DecidableEq, Repr

/-- The per-side mutation of `handleDelta` (kalshi/adapter.go lines 246-251):
    `newQty := side[price] + delta`; delete the level when `newQty ≤ 0`,
    otherwise store it. -/
def applyDeltaSide (m : List (Int × Int)) (price delta : Int) :
    List (Int × Int) :=
  let newQty := ((alFind price m).getD 0) + delta
  if newQty ≤ 0 then alErase price m else alInsert price newQty m

/-- `centsToLevels` (kalshi/adapter.go lines 284-300): each stored cent price
    becomes `price / 100.0`, each quantity becomes a size. -/
def centsToLevels (m : List (Int × Int)) : List (ℚ × ℚ) :=
  m.map (fun e => ((e.1 : ℚ) / 100, (e.2 : ℚ)))

/-- `emitUpdate` (kalshi/adapter.go lines 260-280): a full `BookUpdate` from
    the current book state; YES side becomes bids, NO side becomes asks.
    The wall-clock `time.Now()` timestamp is passed as `now`; the Hash field
    is left empty as in the Go struct literal. -/
def kalshiEmitUpdate (book : KalshiOrderBook) (now : Int) : BookUpdate :=
  { exchange := "kalshi"
  , marketID := book.marketID
  , assetID := book.marketTicker
  , bids := centsToLevels book.yes
  , asks := centsToLevels book.no
  , timestamp := now
  , hash := "" }

/-- `handleDelta` (kalshi/adapter.go lines 227-255) acting on the decoder's
    book map.  A delta for an unknown market ticker leaves the map unchanged
    and emits nothing; otherwise the selected side ("no" selects the NO side,
    anything else the YES side) is mutated and a full update is emitted. -/
def handleDelta (books : List (String × KalshiOrderBook)) (d : KalshiDelta)
    (now : Int) : List (String × KalshiOrderBook) × Option BookUpdate :=
  match alFind d.marketTicker books with
  | none => (books, none)
  | some book =>
    let book' : KalshiOrderBook :=
      if d.side = "no" then { book with no := applyDeltaSide book.no d.price d.delta }
      else { book with yes := applyDeltaSide book.yes d.price d.delta }
    (alInsert d.marketTicker book' books, some (kalshiEmitUpdate book' now))

/-! ## Persistence writer model (`redis_writer.go`, src/unnamed/part_008) -/

/-- `bestPrice` (part_008 lines 120-134): highest bid / lowest ask, `0` for
    an empty side (the Go code returns the string "0", and otherwise
    `strconv.FormatFloat(best)`; distinct float64 values format to distinct
    strings, so the price itself models the written string). -/
def bestPrice (levels : List (ℚ × ℚ)) (isBid : Bool) : ℚ :=
  match levels with
  | [] => 0
  | l :: ls =>
    ls.foldl (fun best lv =>
      let best₁ := if isBid ∧ lv.1 > best then lv.1 else best
      if ¬ isBid ∧ lv.1 < best₁ then lv.1 else best₁) l.1

/-- The Redis key `book:{exchange}:{market_id}` (part_008 line 103). -/
def redisKey (u : BookUpdate) : String :=
  "book:" ++ u.exchange ++ ":" ++ u.marketID

/-- `RedisWriter` duplicate-suppression state (part_008 lines 36-37):
    the last-written `(bid, ask)` per Redis key. -/
structure RedisWriterState where
  last : List (String × (ℚ × ℚ))
deriving DecidableEq, Repr

/-- A performed `HSET`: key, bid, ask, timestamp (part_008 line 115). -/
structure RedisWrite where
  key : String
  bid : ℚ
  ask : ℚ
  ts : Int
deriving DecidableEq, Repr

/-- `RedisWriter.write` (part_008 lines 99-116): compute best bid/ask, skip
    when they equal the last write for the same key, otherwise record the
    pair and issue the `HSET`. -/
def redisWrite (st : RedisWriterState) (u : BookUpdate) :
    RedisWriterState × Option RedisWrite :=
  let bestBid := bestPrice u.bids true
  let bestAsk := bestPrice u.asks false
  let key := redisKey u
  if alFind key st.last = some (bestBid, bestAsk) then (st, none)
  else
    ({ last := alInsert key (bestBid, bestAsk) st.last },
      some { key := key, bid := bestBid, ask := bestAsk, ts := u.timestamp })

/-- The flusher loop: feed a sequence of updates through `write`, collecting
    the issued `HSET`s in order. -/
def redisRun (st : RedisWriterState) :
    List BookUpdate → RedisWriterState × List RedisWrite
  | [] => (st, [])
  | u :: us =>
    let r := redisWrite st u
    let rest := redisRun r.1 us
    (rest.1, r.2.toList ++ rest.2)

/-! ## Order validator model (`internal/engine/validator.go`, in handler.go
    part and src/unnamed/part_005 tests; enums from types.go) -/

/-- `Side` constants (types.go): `Buy = 1`, `Sell = 2`; the Go type is a
    `uint8`, so other values (e.g. 0) are representable. -/
def Buy : Nat := 1

def Sell : Nat := 2

/-- `OrderType` constants (types.go): `Limit = 1`, `Market = 2`,
    `StopLoss = 3`. -/
def Limit : Nat := 1

def MarketOrder : Nat := 2

def StopLoss : Nat := 3

/-- `Status` constants (types.go). -/
def StatusNew : Nat := 1

def StatusValidated : Nat := 2

def StatusRejected : Nat := 6

/-- `Order` (types.go): the unified order representation.  `otype` is the Go
    field `Type`. -/
structure Order where
  orderID : String
  userID : String
  exchange : String
  marketID : String
  assetID : String
  side : Nat
  otype : Nat
  price : ℚ
  quantity : ℚ
  status : Nat
deriving DecidableEq, Repr

/-- Sentinel validation errors (validator.go); `unknownExchange` models the
    non-sentinel `fmt.Errorf("unknown exchange: ...")`. -/
inductive ValidateErr where
  | invalidSide
  | invalidType
  | unknownExchange
  | priceOutOfRange
  | quantityTooLow
  | circuitOpen
deriving DecidableEq, Repr

/-- `DefaultConstraints` (validator.go): `(MinPrice, MaxPrice, MinLotSize)`
    is `(0, 1, 1)` for both `polymarket` and `kalshi`; other exchanges are
    unknown. -/
def DefaultConstraints (exchange : String) : Option (ℚ × ℚ × ℚ) :=
  if exchange = "polymarket" then some (0, 1, 1)
  else if exchange = "kalshi" then some (0, 1, 1)
  else none

/-- `Validator.validate` (validator.go): the fail-fast check sequence.
    `canTradeGate` is the result of `v.gate.CanTrade(order.Exchange,
    order.MarketID)`. -/
def validate (canTradeGate : Bool) (o : Order) : Option ValidateErr :=
  if ¬ (o.side = Buy ∨ o.side = Sell) then some .invalidSide
  else if ¬ (o.otype = Limit ∨ o.otype = MarketOrder ∨ o.otype = StopLoss) then
    some .invalidType
  else
    match DefaultConstraints o.exchange with
    | none => some .unknownExchange
    | some (minPrice, maxPrice, minLot) =>
      if (o.otype = Limit ∨ o.otype = StopLoss) ∧
          (o.price ≤ minPrice ∨ o.price ≥ maxPrice) then some .priceOutOfRange
      else if o.quantity < minLot then some .quantityTooLow
      else if canTradeGate = false then some .circuitOpen
      else none

/-- `Validator.Validate` (validator.go): on failure the order status is set
    to `StatusRejected` and the error returned; on success the status is set
    to `StatusValidated`. -/
def runValidate (canTradeGate : Bool) (o : Order) : Order × Option ValidateErr :=
  match validate canTradeGate o with
  | some e => ({ o with status := StatusRejected }, some e)
  | none => ({ o with status := StatusValidated }, none)

/-! ## Decoder subscription ordering (poly/adapter.go, kalshi/adapter.go)

The WSClient fan-out (`websocket.go`) delivers every inbound frame to the
subscriber channels registered at that moment (`fanOut`, part_005 lines
648-659); a frame delivered before a channel is registered is never seen by
that channel.  The model tracks the ordered list of registered subscriber
ids.  `kalshi.New` calls `ws.Subscribe()` during construction
(kalshi/adapter.go line 134); `poly.New` does not subscribe
(poly/adapter.go lines 55-66) — `PolyAdapter.Run` performs the subscription
when the run loop starts (poly/adapter.go line 87).
-/

/-- WSClient subscription registry: the ids handed out by `Subscribe()`,
    in registration order. -/
structure WSModel where
  subs : List Nat
  nextId : Nat
deriving DecidableEq, Repr

/-- `WSClient.Subscribe` (websocket.go lines 485-491): register a fresh
    subscriber channel. -/
def wsSubscribe (ws : WSModel) : WSModel × Nat :=
  ({ subs := ws.subs ++ [ws.nextId], nextId := ws.nextId + 1 }, ws.nextId)

/-- `WSClient.fanOut` (websocket.go lines 648-659): the subscribers that
    receive a frame arriving now are exactly those currently registered. -/
def fanOutRecipients (ws : WSModel) : List Nat :=
  ws.subs

/-- The subscription handle held by a decoder (`raw` field for Kalshi, the
    local `sub` in `PolyAdapter.Run`). -/
structure DecoderSub where
  sub : Option Nat
deriving DecidableEq, Repr

/-- `kalshi.New` (kalshi/adapter.go lines 131-144): subscribes to the
    WSClient fan-out at construction (`raw: ws.Subscribe()`). -/
def kalshiNew (ws : WSModel) : WSModel × DecoderSub :=
  let r := wsSubscribe ws
  (r.1, { sub := some r.2 })

/-- `poly.New` (poly/adapter.go lines 55-66): constructs the adapter without
    subscribing; the WSClient subscriber set is untouched. -/
def polyNew (ws : WSModel) : WSModel × DecoderSub :=
  (ws, { sub := none })

/-- The first action of `PolyAdapter.Run` (poly/adapter.go line 87):
    `sub := pa.ws.Subscribe()`. -/
def polyRunStart (ws : WSModel) (pa : DecoderSub) : WSModel × DecoderSub :=
  let r := wsSubscribe ws
  (r.1, { pa with sub := some r.2 })

/-! ## Theorems -/

theorem connClosed_iff (oc : Option CircuitState) :
    (∀ c, oc = some c → c = CircuitState.closed) ↔
      oc ≠ some CircuitState.open := by
  cases oc with
  | none => simp
  | some c => cases c <;> simp

/-- **C4.** `can_trade(venue, market)` returns true iff all four conditions
    hold: (1) no manual halt; (2) the transport registered for the venue, if
    any, reports a closed circuit; (3) `now − last_update ≤ stale_threshold`
    (default 1000 ms); (4) `recovered_at` is unset or
    `now − recovered_at ≥ cool_off` (default 2 s).  Stated for a
    `(venue, market)` that has a health entry (with no entry the code returns
    false before evaluating condition 3). -/
theorem canTrade_four_conditions (cb : BreakerState)
    (exchange marketID : String) (now : Int) (ms : MarketHealthState)
    (h : alFind (exchange, marketID) cb.markets = some ms) :
    (canTrade cb exchange marketID now = true ↔
      (cb.halted = false ∧
       (∀ c, alFind exchange cb.conns = some c → c = CircuitState.closed) ∧
       now - ms.lastUpdate ≤ cb.staleThreshold ∧
       (ms.recoveredAt = 0 ∨ now - ms.recoveredAt ≥ cb.coolOff))) ∧
    defaultStaleThreshold = 1000 ∧ defaultCoolOff = 2000 := by
  refine ⟨?_, rfl, rfl⟩
  unfold canTrade
  rw [h]
  simp only [connClosed_iff]
  by_cases hh : cb.halted = true
  · simp [hh]
  · simp only [Bool.not_eq_true] at hh
    by_cases hc : alFind exchange cb.conns = some CircuitState.open
    · simp [hh, hc]
    · simp only [hh, if_false, hc, if_true, Bool.false_eq_true]
      split_ifs with h1 h2 <;> simp [hh, hc] <;> omega

/-- Breaker with a single health entry, used to instantiate the `can_trade`
    characterisation. -/
def cbWitness : BreakerState :=
  { staleThreshold := 1000
  , coolOff := 2000
  , conns := []
  , markets := [(("polymarket", "M"),
      { lastUpdate := 100, recoveredAt := 0, healthy := true })]
  , halted := false }

theorem canTrade_four_conditions_witness :
    canTrade cbWitness "polymarket" "M" 200 = true ∧
    defaultStaleThreshold = 1000 := by
  have h := canTrade_four_conditions cbWitness "polymarket" "M" 200
    { lastUpdate := 100, recoveredAt := 0, healthy := true } rfl
  refine ⟨h.1.mpr ⟨rfl, ?_, by decide, Or.inl rfl⟩, h.2.1⟩
  intro c hc
  simp [alFind, cbWitness] at hc

/-- **C8.** For limit and stop-loss orders on a known venue (defaults
    `min_price = 0`, `max_price = 1`), validation demands
    `min_price < price < max_price` strictly: a price equal to 0 or 1 is
    rejected with the price-out-of-range error (once the earlier side/type
    checks pass); any validation failure sets the status to `rejected` and
    success sets it to `validated`. -/
theorem validator_strict_price_range (gate : Bool) (o : Order)
    (hstatus : o.status = StatusNew)
    (htype : o.otype = Limit ∨ o.otype = StopLoss)
    (hex : o.exchange = "polymarket" ∨ o.exchange = "kalshi") :
    (((o.side = Buy ∨ o.side = Sell) → (o.price = 0 ∨ o.price = 1) →
        (runValidate gate o).2 = some ValidateErr.priceOutOfRange ∧
        (runValidate gate o).1.status = StatusRejected) ∧
     ((runValidate gate o).2 = none →
        (0 < o.price ∧ o.price < 1) ∧
        (runValidate gate o).1.status = StatusValidated) ∧
     (∀ e, (runValidate gate o).2 = some e →
        (runValidate gate o).1.status = StatusRejected)) := by
  have hcons : DefaultConstraints o.exchange = some (0, 1, 1) := by
    rcases hex with h | h <;> simp [DefaultConstraints, h]
  have htype3 : o.otype = Limit ∨ o.otype = MarketOrder ∨ o.otype = StopLoss := by
    rcases htype with h | h
    · exact Or.inl h
    · exact Or.inr (Or.inr h)
  refine ⟨?_, ?_, ?_⟩
  · intro hside hprice
    have hv : validate gate o = some ValidateErr.priceOutOfRange := by
      unfold validate
      rw [if_neg (not_not_intro hside), if_neg (not_not_intro htype3), hcons]
      have hcond : (o.otype = Limit ∨ o.otype = StopLoss) ∧
          (o.price ≤ 0 ∨ o.price ≥ 1) := by
        refine ⟨htype, ?_⟩
        rcases hprice with h | h
        · exact Or.inl (le_of_eq h)
        · exact Or.inr (ge_of_eq h)
      simp [hcond]
    simp [runValidate, hv]
  · intro hnone
    have hval : validate gate o = none := by
      cases hv : validate gate o with
      | none => rfl
      | some e => simp [runValidate, hv] at hnone
    have hbounds : 0 < o.price ∧ o.price < 1 := by
      have hc : ¬ ((o.otype = Limit ∨ o.otype = StopLoss) ∧
          (o.price ≤ 0 ∨ o.price ≥ 1)) := by
        intro hcond
        by_cases hside : o.side = Buy ∨ o.side = Sell
        · have hsome : validate gate o = some ValidateErr.priceOutOfRange := by
            unfold validate
            rw [if_neg (not_not_intro hside), if_neg (not_not_intro htype3),
              hcons]
            dsimp only
            rw [if_pos hcond]
          rw [hsome] at hval
          exact absurd hval (by simp)
        · have hsome : validate gate o = some ValidateErr.invalidSide := by
            unfold validate
            rw [if_pos hside]
          rw [hsome] at hval
          exact absurd hval (by simp)
      constructor
      · by_contra hle
        push_neg at hle
        exact hc ⟨htype, Or.inl hle⟩
      · by_contra hge
        push_neg at hge
        exact hc ⟨htype, Or.inr hge⟩
    exact ⟨hbounds, by simp [runValidate, hval]⟩
  · intro e he
    cases hv : validate gate o with
    | none => simp [runValidate, hv] at he
    | some e₁ => simp [runValidate, hv]

/-- A limit order at price 0 on Polymarket (validator test fixture shape). -/
def orderPriceZero : Order :=
  { orderID := "o-1", userID := "user-1", exchange := "polymarket"
  , marketID := "BTC-100K", assetID := "token-abc"
  , side := Buy, otype := Limit, price := 0, quantity := 10
  , status := StatusNew }

theorem validator_strict_price_range_witness :
    (runValidate true orderPriceZero).2 = some ValidateErr.priceOutOfRange ∧
    (runValidate true orderPriceZero).1.status = StatusRejected :=
  (validator_strict_price_range true orderPriceZero rfl (Or.inl rfl)
    (Or.inl rfl)).1 (Or.inl rfl) (Or.inl rfl)

/-- **C5 (amended: strictly after expiry).** For `now > expires_at` — the Go
    check is `time.Now().After(expiresAt)`, which is strict — the status call
    reports `active = false` with zero ttl, zero limits and an empty address,
    and every `sign_order` call fails with `session_expired`, destroying the
    session instead of producing a signature. -/
theorem session_expired_behavior (s : SessionState) (now : Int)
    (ctx : CryptoCtx) (v : Int) (d : DomainData) (o : OrderData)
    (hact : s.active = true) (hnow : now > s.expiresAt) :
    smStatus s now = (false, 0, 0, 0, "") ∧
    smSign ctx now v d o s = (.error .sessionExpired, destroyLocked s) ∧
    (destroyLocked s).active = false ∧ (destroyLocked s).valueUsed = 0 ∧
    (destroyLocked s).address = "" := by
  refine ⟨?_, ?_, rfl, rfl, rfl⟩
  · unfold smStatus
    simp [hact, hnow]
  · unfold smSign
    simp [hact, hnow]

/-- A session that expires at t = 5000 ms with a small unused limit. -/
def c5State : SessionState :=
  { active := true, address := "0xabc", expiresAt := 5000
  , maxValueLimit := 10, valueUsed := 0 }

/-- A crypto context whose hash and signing primitives are the constant
    functions used to instantiate library-contract hypotheses. -/
def c5Ctx : CryptoCtx :=
  { keccak := fun _ => List.replicate 32 0
  , ecSign := fun _ => some (List.replicate 65 0) }

def c5Domain : DomainData :=
  { name := "Polymarket CTF Exchange", version := "1", chainID := 137
  , verifyingContract := 0 }

def c5Order : OrderData :=
  { salt := 0, maker := 0, signer := 0, taker := 0, tokenID := 0
  , makerAmount := 1, takerAmount := 0, expiration := 0, nonce := 0
  , feeRateBps := 0, side := 0, signatureType := 0 }

theorem session_expired_behavior_witness :
    smStatus c5State 6000 = (false, 0, 0, 0, "") ∧
    smSign c5Ctx 6000 1 c5Domain c5Order c5State =
      (.error .sessionExpired, destroyLocked c5State) :=
  ⟨(session_expired_behavior c5State 6000 c5Ctx 1 c5Domain c5Order rfl
      (by decide)).1,
   (session_expired_behavior c5State 6000 c5Ctx 1 c5Domain c5Order rfl
      (by decide)).2.1⟩

/-- **C5 counterexample.** At the exact instant `now = expires_at` (5000 ms
    here) the claim demands `active = false` and a `session_expired` failure;
    the code's strict `After` check instead reports the session active and
    produces a signature. -/
theorem session_expiry_boundary_cex :
    c5State.expiresAt = 5000 ∧
    (smStatus c5State 5000).1 = true ∧
    (smSign c5Ctx 5000 1 c5Domain c5Order c5State).1 =
      .ok (List.replicate 64 0 ++ [27]) :=
  ⟨rfl, rfl, rfl⟩

/-- **C9 (code bug).** The spec requires each decoder to register its fan-out
    subscription before the transport begins reading — in particular at
    construction.  `kalshi.New` does subscribe at construction
    (kalshi/adapter.go line 134), but `poly.New` does not: after `polyNew`
    the WSClient's subscriber set is unchanged and a frame fanned out at that
    moment reaches no Polymarket subscription; the subscription only appears
    when `PolyAdapter.Run` starts (poly/adapter.go line 87). -/
theorem poly_subscription_gap :
    (polyNew { subs := [], nextId := 0 }).2.sub = none ∧
    (polyNew { subs := [], nextId := 0 }).1.subs = [] ∧
    fanOutRecipients (polyNew { subs := [], nextId := 0 }).1 = [] ∧
    (kalshiNew { subs := [], nextId := 0 }).2.sub = some 0 ∧
    (kalshiNew { subs := [], nextId := 0 }).1.subs = [0] ∧
    (polyRunStart (polyNew { subs := [], nextId := 0 }).1
      (polyNew { subs := [], nextId := 0 }).2).2.sub = some 0 :=
  ⟨rfl, rfl, rfl, rfl, rfl, rfl⟩

theorem approvedTotal_le (cs : List SignCall) :
    ∀ s : SessionState, s.valueUsed ≤ s.maxValueLimit →
      s.valueUsed + approvedTotal s cs ≤ s.maxValueLimit := by
  induction cs with
  | nil =>
    intro s h
    simpa [approvedTotal] using h
  | cons c rest ih =>
    intro s h
    simp only [approvedTotal, smSign]
    split_ifs with h1 h2 h3
    · simpa using ih s h
    · have hdes := ih (destroyLocked s) (by simp [destroyLocked])
      simp only [destroyLocked] at hdes ⊢
      omega
    · simpa using ih s h
    · cases hsig : c.ctx.ecSign (eip712Digest c.ctx.keccak
          (hashDomain c.ctx.keccak c.domain) (hashOrder c.ctx.keccak c.order)) with
      | none => simpa [hsig] using ih s h
      | some sig =>
        have hlim : s.valueUsed + c.value ≤ s.maxValueLimit := by omega
        have := ih { s with valueUsed := s.valueUsed + c.value } (by simpa using hlim)
        simp only [hsig] at this ⊢
        omega

theorem usedLedger_holds (cs : List SignCall) : ∀ s, usedLedger s cs := by
  induction cs with
  | nil => intro s; trivial
  | cons c rest ih =>
    intro s
    simp only [usedLedger, smSign]
    split_ifs with h1 h2 h3
    · exact ⟨rfl, ih _⟩
    · exact ⟨⟨rfl, rfl⟩, ih _⟩
    · exact ⟨rfl, ih _⟩
    · cases hsig : c.ctx.ecSign (eip712Digest c.ctx.keccak
          (hashDomain c.ctx.keccak c.domain) (hashOrder c.ctx.keccak c.order)) with
      | none => exact ⟨by simp [hsig], by simpa [hsig] using ih _⟩
      | some sig => exact ⟨by simp [hsig], by simpa [hsig] using ih _⟩

/-- **C1 (amended).** For every sequence of `sign_order` calls against an
    activated session, the sum of the notionals of the approved calls never
    exceeds `max_notional`, and `valueUsed` is advanced by the order's
    notional exactly on a successful signature (`usedLedger`): a call
    rejected with `no_session`, `limit_exceeded` or a signing failure leaves
    `notional_used` unchanged, while a `session_expired` rejection destroys
    the session and thereby wipes `notional_used` to zero (the one deviation
    from the claim as frozen). -/
theorem sign_notional_invariant (s : SessionState) (cs : List SignCall)
    (hact : s.active = true) (hused : s.valueUsed = 0)
    (hmax : 0 ≤ s.maxValueLimit) :
    approvedTotal s cs ≤ s.maxValueLimit ∧ usedLedger s cs := by
  have h := approvedTotal_le cs s (by omega)
  exact ⟨by omega, usedLedger_holds cs s⟩

/-- Session of scenario S6: limit 200,000,000 atomic USDC. -/
def c1State : SessionState :=
  { active := true, address := "0xabc", expiresAt := 3600000
  , maxValueLimit := 200000000, valueUsed := 0 }

/-- Scenario S6's calls: two orders of 100,000,000 then one of 1,000,000. -/
def c1Calls : List SignCall :=
  [ { now := 1, value := 100000000, ctx := c5Ctx, domain := c5Domain
    , order := c5Order }
  , { now := 2, value := 100000000, ctx := c5Ctx, domain := c5Domain
    , order := c5Order }
  , { now := 3, value := 1000000, ctx := c5Ctx, domain := c5Domain
    , order := c5Order } ]

theorem sign_notional_invariant_witness :
    approvedTotal c1State c1Calls ≤ c1State.maxValueLimit ∧
    usedLedger c1State c1Calls :=
  sign_notional_invariant c1State c1Calls rfl rfl (by decide)

/-- Session about to expire with 100 units already signed. -/
def c1CexState : SessionState :=
  { active := true, address := "0xabc", expiresAt := 10000
  , maxValueLimit := 1000, valueUsed := 0 }

def c1CexCalls : List SignCall :=
  [ { now := 1, value := 100, ctx := c5Ctx, domain := c5Domain
    , order := c5Order }
  , { now := 20000, value := 5, ctx := c5Ctx, domain := c5Domain
    , order := c5Order } ]

/-- **C1 counterexample.** The claim says a rejected call leaves
    `notional_used` unchanged.  Starting from an activated session, one
    approved call brings `valueUsed` to 100; the next call is rejected with
    `session_expired` — and `valueUsed` is reset to 0, not left at 100,
    because the expiry path destroys the session
    (session.go lines 117-120 and 189-194). -/
theorem sign_expired_reset_cex :
    ((signTrace c1CexState c1CexCalls).map (fun p => p.2.valueUsed) =
      [100, 0]) ∧
    ((signTrace c1CexState c1CexCalls).map (fun p =>
        match p.1 with
        | Except.ok _ => none
        | Except.error e => some e) =
      [none, some SignErr.sessionExpired]) :=
  ⟨rfl, rfl⟩

/-- **C3 (amended).** A staleness-caused `can_trade = false` persists at every
    later instant until a fresh update arrives (part 1).  The cool-off only
    re-arms when the market's healthy flag was `false` (set by `mark_stale`
    or the initial zero state) — then the recovery update at `t₂` starts a
    cool-off and `can_trade` stays false for every `t` with
    `t − t₂ < cool_off` (part 2).  When the flag was still `true`, staleness
    alone does not restart the cool-off, which is what refutes the claim as
    frozen (see the counterexample). -/
theorem breaker_stale_persistence (cb : BreakerState)
    (exchange marketID : String) (ms : MarketHealthState)
    (h : alFind (exchange, marketID) cb.markets = some ms) :
    (∀ now later : Int, now - ms.lastUpdate > cb.staleThreshold →
       later ≥ now → canTrade cb exchange marketID later = false) ∧
    (ms.healthy = false → ∀ t₂ t : Int, t₂ ≠ 0 → t₂ ≤ t →
       t - t₂ < cb.coolOff →
       canTrade (recordUpdate cb exchange marketID t₂) exchange marketID t
         = false) := by
  constructor
  · intro now later hstale hge
    have hst : later - ms.lastUpdate > cb.staleThreshold := by omega
    unfold canTrade
    rw [h]
    by_cases hh : cb.halted = true
    · simp [hh]
    · simp only [Bool.not_eq_true] at hh
      by_cases hc : alFind exchange cb.conns = some CircuitState.open
      · simp [hh, hc]
      · simp [hh, hc, hst]
  · intro hunh t₂ t h0 hle hlt
    have hms₂ : alFind (exchange, marketID)
        (recordUpdate cb exchange marketID t₂).markets =
        some { lastUpdate := t₂, healthy := true, recoveredAt := t₂ } := by
      unfold recordUpdate
      simp only [h, Option.getD_some, alFind_alInsert, if_pos rfl, hunh,
        if_true]
    unfold canTrade
    rw [hms₂]
    by_cases hh : (recordUpdate cb exchange marketID t₂).halted = true
    · simp [hh]
    · simp only [Bool.not_eq_true] at hh
      by_cases hc : alFind exchange (recordUpdate cb exchange marketID t₂).conns
          = some CircuitState.open
      · simp [hh, hc]
      · by_cases hst : t - t₂ > (recordUpdate cb exchange marketID t₂).staleThreshold
        · simp [hh, hc, hst]
        · have hcool : t - t₂ < (recordUpdate cb exchange marketID t₂).coolOff := by
            simpa [recordUpdate] using hlt
          simp [hh, hc, hst, h0, hcool]

/-- Default-configured breaker, no transports, no market data yet. -/
def c3cb0 : BreakerState :=
  { staleThreshold := 1000, coolOff := 2000, conns := [], markets := []
  , halted := false }

/-- After the first update for ("kalshi", "M") at t = 100 ms. -/
def c3cb1 : BreakerState := recordUpdate c3cb0 "kalshi" "M" 100

/-- After a single fresh update at t = 5001 ms, following the staleness
    window. -/
def c3cb2 : BreakerState := recordUpdate c3cb1 "kalshi" "M" 5001

/-- `c3cb1` with the market marked stale (unhealthy). -/
def c3cbStale : BreakerState := markStale c3cb1 "kalshi" "M"

theorem breaker_stale_persistence_witness :
    canTrade c3cbStale "kalshi" "M" 9999 = false ∧
    canTrade (recordUpdate c3cbStale "kalshi" "M" 6000) "kalshi" "M" 7000
      = false :=
  ⟨(breaker_stale_persistence c3cbStale "kalshi" "M"
      { lastUpdate := 100, recoveredAt := 100, healthy := false } rfl).1
      2000 9999 (by decide) (by decide),
   (breaker_stale_persistence c3cbStale "kalshi" "M"
      { lastUpdate := 100, recoveredAt := 100, healthy := false } rfl).2
      rfl 6000 7000 (by decide) (by decide) (by decide)⟩

/-- **C3 counterexample.** At t = 5000 the breaker refuses ("kalshi", "M")
    purely because the last update (t = 100) is older than the 1000 ms stale
    threshold — no halt, no registered transport, and the health entry
    exists.  A single fresh update at t = 5001 then makes `can_trade` true
    already at t = 5002, just 1 ms later, with no new 2000 ms cool-off:
    staleness never cleared the healthy flag, so `recordUpdate` does not
    restart `recovered_at` (circuit_breaker.go lines 357-365).  The claim
    requires `can_trade` to stay false until the cool-off elapses after the
    fresh update, so it is false on this input. -/
theorem breaker_cooloff_cex :
    canTrade c3cb1 "kalshi" "M" 5000 = false ∧
    c3cb1.halted = false ∧
    alFind "kalshi" c3cb1.conns = none ∧
    (alFind ("kalshi", "M") c3cb1.markets).map (fun ms => ms.lastUpdate)
      = some 100 ∧
    canTrade c3cb2 "kalshi" "M" 5002 = true :=
  ⟨rfl, rfl, rfl, rfl, rfl⟩

theorem alFind_applyDeltaSide (m : List (Int × Int)) (price delta p : Int) :
    alFind p (applyDeltaSide m price delta) =
      if p = price then
        (if (alFind price m).getD 0 + delta ≤ 0 then none
         else some ((alFind price m).getD 0 + delta))
      else alFind p m := by
  unfold applyDeltaSide
  by_cases hq : (alFind price m).getD 0 + delta ≤ 0
  · simp [hq, alFind_alErase]
  · simp [hq, alFind_alInsert]

theorem mem_centsToLevels (m : List (Int × Int)) (lv : ℚ × ℚ) :
    lv ∈ centsToLevels m ↔
      ∃ c n : Int, (c, n) ∈ m ∧ lv = ((c : ℚ) / 100, (n : ℚ)) := by
  unfold centsToLevels
  simp only [List.mem_map]
  constructor
  · rintro ⟨e, hmem, hEq⟩
    exact ⟨e.1, e.2, hmem, hEq.symm⟩
  · rintro ⟨c, n, hmem, hEq⟩
    exact ⟨(c, n), hmem, hEq.symm⟩

/-- **C6.** A Kalshi `orderbook_delta` for a market with a prior snapshot
    adds `delta` to the stored quantity at that price on the given side
    ("no" selects the NO side, anything else the YES side), deleting the
    level when the result is ≤ 0, and emits a full `BookUpdate` whose level
    prices are the stored integer cents divided by 100; a delta for a market
    with no prior snapshot leaves the decoder state unchanged and emits
    nothing. -/
theorem kalshi_delta_semantics (books : List (String × KalshiOrderBook))
    (d : KalshiDelta) (now : Int) :
    (alFind d.marketTicker books = none →
      handleDelta books d now = (books, none)) ∧
    (∀ book, alFind d.marketTicker books = some book →
      ∃ bk : KalshiOrderBook,
        handleDelta books d now =
          (alInsert d.marketTicker bk books, some (kalshiEmitUpdate bk now)) ∧
        bk.marketTicker = book.marketTicker ∧
        bk.marketID = book.marketID ∧
        (d.side = "no" →
          bk.yes = book.yes ∧
          ∀ p : Int, alFind p bk.no =
            (if p = d.price then
              (if (alFind d.price book.no).getD 0 + d.delta ≤ 0 then none
               else some ((alFind d.price book.no).getD 0 + d.delta))
             else alFind p book.no)) ∧
        (d.side ≠ "no" →
          bk.no = book.no ∧
          ∀ p : Int, alFind p bk.yes =
            (if p = d.price then
              (if (alFind d.price book.yes).getD 0 + d.delta ≤ 0 then none
               else some ((alFind d.price book.yes).getD 0 + d.delta))
             else alFind p book.yes)) ∧
        (∀ lv : ℚ × ℚ, lv ∈ (kalshiEmitUpdate bk now).bids ↔
          ∃ c n : Int, (c, n) ∈ bk.yes ∧ lv = ((c : ℚ) / 100, (n : ℚ))) ∧
        (∀ lv : ℚ × ℚ, lv ∈ (kalshiEmitUpdate bk now).asks ↔
          ∃ c n : Int, (c, n) ∈ bk.no ∧ lv = ((c : ℚ) / 100, (n : ℚ)))) := by
  constructor
  · intro h
    unfold handleDelta
    rw [h]
  · intro book h
    refine ⟨if d.side = "no"
        then { book with no := applyDeltaSide book.no d.price d.delta }
        else { book with yes := applyDeltaSide book.yes d.price d.delta },
      ?_, ?_, ?_, ?_, ?_, ?_, ?_⟩
    · unfold handleDelta
      rw [h]
    · by_cases hs : d.side = "no" <;> simp [hs]
    · by_cases hs : d.side = "no" <;> simp [hs]
    · intro hs
      rw [if_pos hs]
      exact ⟨rfl, fun p => alFind_applyDeltaSide book.no d.price d.delta p⟩
    · intro hs
      rw [if_neg hs]
      exact ⟨rfl, fun p => alFind_applyDeltaSide book.yes d.price d.delta p⟩
    · intro lv
      exact mem_centsToLevels _ lv
    · intro lv
      exact mem_centsToLevels _ lv

/-- Books after scenario S2's snapshot: yes [[48, 300]], no [[54, 200]]. -/
def c6Books : List (String × KalshiOrderBook) :=
  [("T-1", { marketTicker := "T-1", marketID := "M-1"
           , yes := [(48, 300)], no := [(54, 200)] })]

/-- Scenario S2's delta: price 48, delta −100, side "yes". -/
def c6Delta : KalshiDelta :=
  { marketTicker := "T-1", marketID := "M-1", price := 48, delta := -100
  , side := "yes" }

theorem kalshi_delta_semantics_witness :
    handleDelta [] c6Delta 5 = ([], none) ∧
    (handleDelta c6Books c6Delta 5).2.isSome = true := by
  refine ⟨(kalshi_delta_semantics [] c6Delta 5).1 rfl, ?_⟩
  obtain ⟨bk, hEq, _⟩ := (kalshi_delta_semantics c6Books c6Delta 5).2
    { marketTicker := "T-1", marketID := "M-1"
    , yes := [(48, 300)], no := [(54, 200)] } rfl
  rw [hEq]
  rfl

theorem redisRun_suppressed (us : List BookUpdate) :
    ∀ (st : RedisWriterState) (k : String) (b a : ℚ),
    (∀ u₁ ∈ us, redisKey u₁ = k ∧ bestPrice u₁.bids true = b ∧
        bestPrice u₁.asks false = a) →
    alFind k st.last = some (b, a) →
    redisRun st us = (st, []) := by
  induction us with
  | nil => intro st k b a _ _; rfl
  | cons u rest ih =>
    intro st k b a hall hfind
    have hu := hall u (by simp)
    have hw : redisWrite st u = (st, none) := by
      unfold redisWrite
      rw [hu.1, hu.2.1, hu.2.2, if_pos hfind]
    simp only [redisRun, hw]
    rw [ih st k b a (fun u₁ h₁ => hall u₁ (by simp [h₁])) hfind]
    simp

/-- **C7.** For a run of consecutive `BookUpdate` values for the same key
    whose derived best bid (max bid price, 0 for an empty side) and best ask
    (min ask price) all agree, and whose pair differs from the last write for
    that key, the writer issues exactly one cache write — carrying the
    first update's fields — and suppresses the rest; and from any state, an
    update whose `(best_bid, best_ask)` differs from the last written pair
    for its key triggers a write. -/
theorem writer_idempotence (st : RedisWriterState) (u : BookUpdate)
    (us : List BookUpdate)
    (hrun : ∀ u₁ ∈ us, redisKey u₁ = redisKey u ∧
        bestPrice u₁.bids true = bestPrice u.bids true ∧
        bestPrice u₁.asks false = bestPrice u.asks false)
    (hfresh : alFind (redisKey u) st.last ≠
        some (bestPrice u.bids true, bestPrice u.asks false)) :
    (redisRun st (u :: us)).2 =
      [{ key := redisKey u, bid := bestPrice u.bids true
       , ask := bestPrice u.asks false, ts := u.timestamp }] ∧
    (∀ (st₁ : RedisWriterState) (u₁ : BookUpdate) (p : ℚ × ℚ),
       alFind (redisKey u₁) st₁.last = some p →
       p ≠ (bestPrice u₁.bids true, bestPrice u₁.asks false) →
       (redisWrite st₁ u₁).2 =
         some { key := redisKey u₁, bid := bestPrice u₁.bids true
              , ask := bestPrice u₁.asks false, ts := u₁.timestamp }) := by
  constructor
  · have hw : redisWrite st u =
        ({ last := alInsert (redisKey u)
             (bestPrice u.bids true, bestPrice u.asks false) st.last },
         some { key := redisKey u, bid := bestPrice u.bids true
              , ask := bestPrice u.asks false, ts := u.timestamp }) := by
      unfold redisWrite
      rw [if_neg hfresh]
    have hrest : redisRun
        { last := alInsert (redisKey u)
            (bestPrice u.bids true, bestPrice u.asks false) st.last } us =
        ({ last := alInsert (redisKey u)
            (bestPrice u.bids true, bestPrice u.asks false) st.last }, []) := by
      refine redisRun_suppressed us _ (redisKey u) (bestPrice u.bids true)
        (bestPrice u.asks false) hrun ?_
      rw [alFind_alInsert, if_pos rfl]
    simp only [redisRun, hw, hrest]
    rfl
  · intro st₁ u₁ p hfind hne
    have hcond : alFind (redisKey u₁) st₁.last ≠
        some (bestPrice u₁.bids true, bestPrice u₁.asks false) := by
      rw [hfind]
      exact fun hEq => hne (Option.some.inj hEq)
    unfold redisWrite
    rw [if_neg hcond]

/-- Scenario S3's updates: three identical books (bid 0.48, ask 0.54), then
    one with bid 0.50. -/
def s3Update (ts : Int) : BookUpdate :=
  { exchange := "kalshi", marketID := "M-1", assetID := "T-1"
  , bids := [(48 / 100, 200)], asks := [(54 / 100, 200)]
  , timestamp := ts, hash := "" }

def s3UpdateMoved : BookUpdate :=
  { exchange := "kalshi", marketID := "M-1", assetID := "T-1"
  , bids := [(50 / 100, 200)], asks := [(54 / 100, 200)]
  , timestamp := 4, hash := "" }

theorem writer_idempotence_witness :
    (redisRun { last := [] } [s3Update 1, s3Update 2, s3Update 3]).2 =
      [{ key := "book:kalshi:M-1", bid := 48 / 100, ask := 54 / 100
       , ts := 1 }] ∧
    (redisWrite { last := [("book:kalshi:M-1", (48 / 100, 54 / 100))] }
        s3UpdateMoved).2 =
      some { key := "book:kalshi:M-1", bid := 50 / 100, ask := 54 / 100
           , ts := 4 } := by
  have h := writer_idempotence { last := [] } (s3Update 1)
    [s3Update 2, s3Update 3]
    (by intro u₁ h₁; fin_cases h₁ <;> exact ⟨rfl, rfl, rfl⟩)
    (by intro hEq; simp [alFind] at hEq)
  refine ⟨h.1, ?_⟩
  exact h.2 { last := [("book:kalshi:M-1", (48 / 100, 54 / 100))] }
    s3UpdateMoved (48 / 100, 54 / 100) rfl
    (by norm_num [s3UpdateMoved, bestPrice])

/-- **C10.** `Handler.SignOrder` constructs the EIP-712 `OrderData` with the
    salt fixed to zero and the signer set to the maker address, whatever the
    request contains (the request has no salt or signer field to supply);
    consequently any two requests that agree on all protocol-visible order
    and domain fields produce the same digest, for any hash function. -/
theorem signOrder_salt_signer_fixed (po po₁ : ProtoOrder)
    (pd pd₁ : ProtoDomain) (keccak : List Nat → List Nat) :
    (buildOrderData po).salt = 0 ∧
    (buildOrderData po).signer = (buildOrderData po).maker ∧
    (po.maker = po₁.maker → po.taker = po₁.taker → po.tokenId = po₁.tokenId →
     po.makerAmount = po₁.makerAmount → po.takerAmount = po₁.takerAmount →
     po.expiration = po₁.expiration → po.nonce = po₁.nonce →
     po.feeRateBps = po₁.feeRateBps → po.side = po₁.side →
     po.signatureType = po₁.signatureType → pd.name = pd₁.name →
     pd.version = pd₁.version → pd.chainId = pd₁.chainId →
     pd.verifyingContract = pd₁.verifyingContract →
     eip712Digest keccak (hashDomain keccak (buildDomainData pd))
         (hashOrder keccak (buildOrderData po)) =
       eip712Digest keccak (hashDomain keccak (buildDomainData pd₁))
         (hashOrder keccak (buildOrderData po₁))) := by
  refine ⟨rfl, rfl, ?_⟩
  intro h1 h2 h3 h4 h5 h6 h7 h8 h9 h10 h11 h12 h13 h14
  cases po; cases po₁; cases pd; cases pd₁
  simp only at h1 h2 h3 h4 h5 h6 h7 h8 h9 h10 h11 h12 h13 h14
  subst_vars
  rfl

/-- A concrete `SignOrderRequest` payload. -/
def poW : ProtoOrder :=
  { maker := "0x1111111111111111111111111111111111111111"
  , taker := "0x0000000000000000000000000000000000000000"
  , tokenId := "123456", makerAmount := "100000000"
  , takerAmount := "50000000", expiration := 0, nonce := 0, feeRateBps := 0
  , side := OrderSide.buy, signatureType := SignatureType.eoa }

def pdW : ProtoDomain :=
  { name := "Polymarket CTF Exchange", version := "1", chainId := 137
  , verifyingContract := "0x4bFb41d5B3570DeFd03C39a9A4D8dE6Bd8B8982E" }

theorem signOrder_salt_signer_fixed_witness :
    (buildOrderData poW).salt = 0 ∧
    (buildOrderData poW).signer = (buildOrderData poW).maker ∧
    eip712Digest (fun l => l) (hashDomain (fun l => l) (buildDomainData pdW))
        (hashOrder (fun l => l) (buildOrderData poW)) =
      eip712Digest (fun l => l) (hashDomain (fun l => l) (buildDomainData pdW))
        (hashOrder (fun l => l) (buildOrderData poW)) := by
  have h := signOrder_salt_signer_fixed poW poW pdW pdW (fun l => l)
  exact ⟨h.1, h.2.1, h.2.2 rfl rfl rfl rfl rfl rfl rfl rfl rfl rfl rfl rfl
    rfl rfl⟩

theorem adjustV_spec (raw : List Nat) (h : raw.length = 65) :
    (adjustV raw).length = 65 ∧
    (adjustV raw).take 64 = raw.take 64 ∧
    (adjustV raw).drop 64 = (raw.drop 64).map (fun b => (b + 27) % 256) := by
  have hA : (raw.take 64).length = 64 := by
    simp [List.length_take, h]
  refine ⟨?_, ?_, ?_⟩
  · simp [adjustV, List.length_append, List.length_map, List.length_drop,
      h, hA]
  · rw [adjustV, List.take_left' hA]
  · rw [adjustV, List.drop_left' hA]

/-- **C2.** An approved `sign_order` returns exactly the 65-byte
    `r (32) || s (32) || v (1)` signature produced by secp256k1 ECDSA over
    `keccak256(0x19 || 0x01 || domainSeparator || structHash)`, with `v`
    bumped from the library's raw recovery id {0, 1} to {27, 28} and the
    first 64 bytes (`r || s`) untouched; `structHash` is the keccak of the
    order type hash followed by the twelve order fields, each zero-left-padded
    to 32 bytes, in declared order.  `hlib` is go-ethereum's documented
    contract for `crypto.Sign` (65 bytes, recovery id in {0, 1}). -/
theorem sign_signature_shape (ctx : CryptoCtx) (s : SessionState)
    (now v : Int) (d : DomainData) (o : OrderData) (sig : List Nat)
    (hlib : ∀ dg sg, ctx.ecSign dg = some sg →
      sg.length = 65 ∧ (sg.drop 64 = [0] ∨ sg.drop 64 = [1]))
    (hok : (smSign ctx now v d o s).1 = Except.ok sig) :
    sig.length = 65 ∧
    (sig.drop 64 = [27] ∨ sig.drop 64 = [28]) ∧
    (∃ raw, ctx.ecSign (eip712Digest ctx.keccak (hashDomain ctx.keccak d)
         (hashOrder ctx.keccak o)) = some raw ∧
       sig = adjustV raw ∧ sig.take 64 = raw.take 64) ∧
    eip712Digest ctx.keccak (hashDomain ctx.keccak d) (hashOrder ctx.keccak o)
      = ctx.keccak (0x19 :: 0x01 ::
          (hashDomain ctx.keccak d ++ hashOrder ctx.keccak o)) ∧
    hashOrder ctx.keccak o =
      ctx.keccak (orderTypeHash ctx.keccak ++ pad32 o.salt ++ pad32 o.maker ++
        pad32 o.signer ++ pad32 o.taker ++ pad32 o.tokenID ++
        pad32 o.makerAmount ++ pad32 o.takerAmount ++ pad32 o.expiration ++
        pad32 o.nonce ++ pad32 o.feeRateBps ++ pad32 o.side ++
        pad32 o.signatureType) ∧
    ((∀ x ∈ [o.salt, o.maker, o.signer, o.taker, o.tokenID, o.makerAmount,
        o.takerAmount, o.expiration, o.nonce, o.feeRateBps, o.side,
        o.signatureType], x.natAbs < 256 ^ 32) →
      [o.salt, o.maker, o.signer, o.taker, o.tokenID, o.makerAmount,
        o.takerAmount, o.expiration, o.nonce, o.feeRateBps, o.side,
        o.signatureType].map (fun x => (pad32 x).length) =
        List.replicate 12 32) := by
  unfold smSign at hok
  split_ifs at hok with h1 h2 h3
  cases hsig : ctx.ecSign (eip712Digest ctx.keccak (hashDomain ctx.keccak d)
      (hashOrder ctx.keccak o)) with
  | none => rw [hsig] at hok; exact absurd hok (by simp)
  | some raw =>
    rw [hsig] at hok
    simp only [Except.ok.injEq] at hok
    obtain ⟨hlen, hv⟩ := hlib _ raw hsig
    obtain ⟨hL, hT, hD⟩ := adjustV_spec raw hlen
    subst hok
    refine ⟨hL, ?_, ⟨raw, rfl, rfl, hT⟩, rfl, rfl, ?_⟩
    · rw [hD]
      rcases hv with hv | hv
      · left
        rw [hv]
        decide
      · right
        rw [hv]
        decide
    · intro hall
      simp only [List.map_cons, List.map_nil]
      rw [pad32_length o.salt (hall o.salt (by simp)),
        pad32_length o.maker (hall o.maker (by simp)),
        pad32_length o.signer (hall o.signer (by simp)),
        pad32_length o.taker (hall o.taker (by simp)),
        pad32_length o.tokenID (hall o.tokenID (by simp)),
        pad32_length o.makerAmount (hall o.makerAmount (by simp)),
        pad32_length o.takerAmount (hall o.takerAmount (by simp)),
        pad32_length o.expiration (hall o.expiration (by simp)),
        pad32_length o.nonce (hall o.nonce (by simp)),
        pad32_length o.feeRateBps (hall o.feeRateBps (by simp)),
        pad32_length o.side (hall o.side (by simp)),
        pad32_length o.signatureType (hall o.signatureType (by simp))]
      rfl

theorem sign_signature_shape_witness :
    (smSign c5Ctx 0 1 c5Domain c5Order c5State).1 =
      Except.ok (List.replicate 64 0 ++ [27]) ∧
    (List.replicate 64 0 ++ [27] : List Nat).length = 65 ∧
    ((List.replicate 64 0 ++ [27] : List Nat).drop 64 = [27] ∨
     (List.replicate 64 0 ++ [27] : List Nat).drop 64 = [28]) := by
  have h := sign_signature_shape c5Ctx c5State 0 1 c5Domain c5Order
    (List.replicate 64 0 ++ [27])
    (by
      intro dg sg hsg
      have h₂ : (some (List.replicate 65 0) : Option (List Nat)) = some sg :=
        hsg
      cases Option.some.inj h₂
      exact ⟨by decide, Or.inl (by decide)⟩)
    rfl
  exact ⟨rfl, h.1, h.2.1⟩
